import Mathlib

/-!
Verification of the `rust-top` terminal dashboard (`src/main.rs`) against its
natural-language specification.

The development shallowly embeds the core loop of `src/main.rs`:
the process ranker (`run_app`, lines 90-103), the CPU-band text
(lines 68-76), the poll-timeout computation (lines 167-169), the
key-dispatch of one loop iteration (lines 170-180), and the teardown
structure of `main` (lines 17-41).

Modelling conventions:
* `f32` CPU percentages are embedded as exact rationals (`ℚ`).  Every value
  the claims evaluate is exactly representable in `f32` and the arithmetic
  performed on it (sums of small multiples of 1/10, multiplication by 100)
  is exact in `f32`, so the rational model agrees with the floating-point
  code on those inputs.
* `std::time::Duration` is embedded as a natural number of nanoseconds
  (`Duration` is unsigned in Rust; `checked_sub` returns `None` on
  underflow).
* Rust's `sort_by_key` is a stable sort; a stable sort's output is uniquely
  determined by (sortedness by the key, being a permutation of the input,
  stability), so it is embedded as `List.insertionSort`, which has exactly
  those three properties.
* Fallible I/O actions are embedded as `Except`-valued inputs: one loop
  iteration is a pure function of the outcomes the environment returns for
  `terminal.draw`, `event::poll` and `event::read`.
-/

namespace RustTop

/-! ## Process model and the ranker (`src/main.rs` lines 90-103) -/

/-- One entry of the process table returned by the snapshot provider
(`sysinfo`): process id, name, CPU usage percentage (an `f32` in the code,
embedded as an exact rational) and memory. -/
structure Process where
  pid : Nat
  name : String
  cpu_usage : ℚ
  memory : Nat
deriving DecidableEq, Repr

/-- Rust's `f32 as i32` cast: truncation toward zero, saturating at the
`i32` bounds.  On a rational `q` truncation toward zero is `num.tdiv den`. -/
def f32AsI32 (q : ℚ) : Int :=
  max (-2147483648) (min 2147483647 (q.num.tdiv (q.den : Int)))

/-- The sort key used at `src/main.rs:91`:
`processes.sort_by_key(|p| -(p.cpu_usage() as i32))`. -/
def cpuKey (p : Process) : Int :=
  -(f32AsI32 p.cpu_usage)

/-- The comparison the stable sort uses: ascending order of `cpuKey`,
i.e. descending order of the truncated CPU usage. -/
def procLE (p q : Process) : Prop :=
  cpuKey p ≤ cpuKey q

instance : DecidableRel procLE :=
  fun p q => inferInstanceAs (Decidable (cpuKey p ≤ cpuKey q))

instance : IsTotal Process procLE :=
  ⟨fun p q => Int.le_total (cpuKey p) (cpuKey q)⟩

instance : IsTrans Process procLE :=
  ⟨fun _ _ _ h h' => Int.le_trans h h'⟩

/-- The stable sort of the process list by `cpuKey`
(`processes.sort_by_key(|p| -(p.cpu_usage() as i32))` at `src/main.rs:91`,
with the provider's enumeration order as the input order). -/
def sortProcesses (ps : List Process) : List Process :=
  ps.insertionSort procLE

/-- The ranker truncated to a display count `n`
(`.take(5)` at `src/main.rs:94`; the spec's `N` is a deployment profile). -/
def rankN (n : Nat) (ps : List Process) : List Process :=
  (sortProcesses ps).take n

/-- The ranker as deployed: top 5 processes (`src/main.rs:90-94`). -/
def rank (ps : List Process) : List Process :=
  rankN 5 ps

/-- The integer part of a rational number (floor), used to phrase
"the CPU usages differ only in the fractional part". -/
def ratIntPart (q : ℚ) : Int :=
  q.num.fdiv (q.den : Int)

/-- Truncation toward zero agrees with floor division on non-negative
operands. -/
theorem tdiv_eq_fdiv_of_nonneg (a b : Int) (ha : 0 ≤ a) (hb : 0 ≤ b) :
    a.tdiv b = a.fdiv b := by
  match a, ha, b, hb with
  | Int.ofNat 0, _, Int.ofNat n, _ => simp [Int.tdiv, Int.fdiv, Nat.zero_div]
  | Int.ofNat (m+1), _, Int.ofNat n, _ => rfl

/-- For a non-negative rational, the saturating `f32 as i32` truncation is
the clamped integer part. -/
theorem f32AsI32_eq_clamp_intPart (q : ℚ) (hq : 0 ≤ q) :
    f32AsI32 q = max (-2147483648) (min 2147483647 (ratIntPart q)) := by
  unfold f32AsI32 ratIntPart
  rw [tdiv_eq_fdiv_of_nonneg q.num q.den (Rat.num_nonneg.mpr hq)
    (Int.ofNat_nonneg q.den)]

/-! ## Claims about the ranker -/

/-- C1: The ranking comparison key is the process's CPU usage percentage
truncated to a signed integer and negated (for descending order).  Two
processes whose CPU usages differ only in the fractional part (same
integer part, both non-negative) receive equal keys, so the ranker's
comparison treats them as equal in both directions: the truncated key, not
the full-precision value, decides the order. -/
theorem ranker_key_truncates_fractional_part :
    (∀ p : Process, cpuKey p = -(f32AsI32 p.cpu_usage)) ∧
    (∀ p q : Process, 0 ≤ p.cpu_usage → 0 ≤ q.cpu_usage →
      ratIntPart p.cpu_usage = ratIntPart q.cpu_usage →
      cpuKey p = cpuKey q ∧ procLE p q ∧ procLE q p) := by
  refine ⟨fun p => rfl, fun p q hp hq h => ?_⟩
  have hk : cpuKey p = cpuKey q := by
    unfold cpuKey
    rw [f32AsI32_eq_clamp_intPart _ hp, f32AsI32_eq_clamp_intPart _ hq, h]
  exact ⟨hk, le_of_eq hk, le_of_eq hk.symm⟩

/-- Witness for C1 at CPU usages 50.5 and 50.9: same integer part, equal
keys, comparator equal in both directions. -/
theorem ranker_key_truncates_fractional_part_witness :
    cpuKey ⟨1, "a", mkRat 101 2, 100⟩ = cpuKey ⟨2, "b", mkRat 509 10, 200⟩ ∧
    procLE ⟨1, "a", mkRat 101 2, 100⟩ ⟨2, "b", mkRat 509 10, 200⟩ ∧
    procLE ⟨2, "b", mkRat 509 10, 200⟩ ⟨1, "a", mkRat 101 2, 100⟩ :=
  ranker_key_truncates_fractional_part.2
    ⟨1, "a", mkRat 101 2, 100⟩ ⟨2, "b", mkRat 509 10, 200⟩
    (by decide) (by decide) (by decide)

/-- C2: For every process-table input, the ranked output is non-increasing
across consecutive rows under the truncated integer comparison of CPU
usage reproduced from the reference code. -/
theorem rank_nonincreasing_truncated (ps : List Process) :
    List.Chain' (fun a b => f32AsI32 b.cpu_usage ≤ f32AsI32 a.cpu_usage)
      (rank ps) := by
  have hs : List.Pairwise procLE (sortProcesses ps) :=
    List.sorted_insertionSort procLE ps
  have ht : List.Pairwise procLE (rank ps) :=
    List.Pairwise.sublist (List.take_sublist 5 (sortProcesses ps)) hs
  exact (ht.imp fun h => neg_le_neg_iff.mp h).chain'

/-- Witness for C2 on a concrete process table with a fractional tie
(3.5% and 3.9%, intact 12%). -/
theorem rank_nonincreasing_truncated_witness :
    List.Chain' (fun a b => f32AsI32 b.cpu_usage ≤ f32AsI32 a.cpu_usage)
      (rank [⟨7, "x", mkRat 7 2, 1⟩, ⟨8, "y", 12, 2⟩,
        ⟨9, "z", mkRat 39 10, 3⟩]) :=
  rank_nonincreasing_truncated
    [⟨7, "x", mkRat 7 2, 1⟩, ⟨8, "y", 12, 2⟩, ⟨9, "z", mkRat 39 10, 3⟩]

/-- C3: For every process-table input, the ranked output has at most 5
rows, is a subsequence of the sorted input, and every output row comes
from a process present in the input enumeration. -/
theorem rank_length_le_five_and_subsequence (ps : List Process) :
    (rank ps).length ≤ 5 ∧ (rank ps).Sublist (sortProcesses ps) ∧
      ∀ p ∈ rank ps, p ∈ ps := by
  refine ⟨?_, List.take_sublist 5 (sortProcesses ps), fun p hp => ?_⟩
  · simp [rank, rankN]
  · have h1 : p ∈ sortProcesses ps :=
      (List.take_sublist 5 (sortProcesses ps)).mem hp
    exact (List.perm_insertionSort procLE ps).subset h1

/-- Witness for C3: on a concrete two-process table, the output is short
enough and a ranked row really comes from the input. -/
theorem rank_length_le_five_and_subsequence_witness :
    (rank [⟨7, "x", mkRat 7 2, 1⟩, ⟨8, "y", 12, 2⟩]).length ≤ 5 ∧
    (⟨8, "y", 12, 2⟩ : Process) ∈ [⟨7, "x", mkRat 7 2, 1⟩, ⟨8, "y", 12, 2⟩] :=
  ⟨(rank_length_le_five_and_subsequence
      [⟨7, "x", mkRat 7 2, 1⟩, ⟨8, "y", 12, 2⟩]).1,
    (rank_length_le_five_and_subsequence
      [⟨7, "x", mkRat 7 2, 1⟩, ⟨8, "y", 12, 2⟩]).2.2
      ⟨8, "y", 12, 2⟩ (by decide)⟩

/-- The three processes of the spec's stability scenario. -/
def procA : Process := ⟨1, "a", 5, 100⟩

/-- Second process of the stability scenario (CPU 50.0, first of the tie). -/
def procB : Process := ⟨2, "b", 50, 200⟩

/-- Third process of the stability scenario (CPU 50.0, second of the tie). -/
def procC : Process := ⟨3, "c", 50, 50⟩

/-- C4: The ranker's sort is stable: two processes with equal comparison
keys keep their relative enumeration order in the sorted output; and on
the spec's scenario `{(1,"a",5.0,100),(2,"b",50.0,200),(3,"c",50.0,50)}`
with N = 2 the ranked output is `[(2,"b",...),(3,"c",...)]`. -/
theorem rank_stable_with_scenario :
    (∀ (ps : List Process) (a b : Process), cpuKey a = cpuKey b →
        [a, b].Sublist ps → [a, b].Sublist (sortProcesses ps)) ∧
    rankN 2 [procA, procB, procC] = [procB, procC] := by
  constructor
  · intro ps a b hk hs
    exact List.pair_sublist_insertionSort (le_of_eq hk) hs
  · decide

/-- Witness for C4: the tied pair of the scenario keeps its input order in
the sorted output. -/
theorem rank_stable_with_scenario_witness :
    cpuKey procB = cpuKey procC ∧
    [procB, procC].Sublist (sortProcesses [procA, procB, procC]) :=
  ⟨by decide,
    rank_stable_with_scenario.1 [procA, procB, procC] procB procC
      (by decide) (by decide)⟩

/-! ## Poll timeout (`src/main.rs` lines 167-169)

`std::time::Duration` is unsigned; it is embedded as a natural number of
nanoseconds.  `Duration::checked_sub` returns `None` when the result would
underflow. -/

/-- `Duration::checked_sub`: `a - b` when it does not underflow, `None`
otherwise. -/
def durationCheckedSub (a b : Nat) : Option Nat :=
  if b ≤ a then some (a - b) else none

/-- `tick_rate = Duration::from_secs(1)` (`src/main.rs:45`), in
nanoseconds. -/
def tickRate : Nat := 1000000000

/-- The input-poll timeout of one loop iteration
(`tick_rate.checked_sub(last_tick.elapsed()).unwrap_or_else(|| Duration::from_secs(0))`,
`src/main.rs:167-169`). -/
def pollTimeout (elapsed : Nat) : Nat :=
  (durationCheckedSub tickRate elapsed).getD 0

/-- C5: For every elapsed time since the last tick, the poll timeout
equals `tick_interval - elapsed` when `elapsed ≤ tick_interval`, and zero
otherwise; it is never negative. -/
theorem poll_timeout_clamped (elapsed : Nat) :
    (elapsed ≤ tickRate →
      (pollTimeout elapsed : Int) = (tickRate : Int) - elapsed) ∧
    (tickRate < elapsed → pollTimeout elapsed = 0) ∧
    0 ≤ (pollTimeout elapsed : Int) := by
  refine ⟨fun h => ?_, fun h => ?_, Int.ofNat_nonneg _⟩
  · unfold pollTimeout durationCheckedSub
    rw [if_pos h]
    simp only [Option.getD_some]
    omega
  · unfold pollTimeout durationCheckedSub
    rw [if_neg (by omega)]
    rfl

/-- Witness for C5 at 0.3s elapsed (remainder 0.7s) and at 1.5s elapsed
(clamped to zero). -/
theorem poll_timeout_clamped_witness :
    (pollTimeout 300000000 : Int) = (tickRate : Int) - 300000000 ∧
    pollTimeout 1500000000 = 0 :=
  ⟨(poll_timeout_clamped 300000000).1 (by decide),
    (poll_timeout_clamped 1500000000).2.1 (by decide)⟩

/-! ## CPU band text (`src/main.rs` lines 68-73)

The per-core usages are `f32` percentages, embedded as exact rationals;
on the inputs the claims evaluate (small multiples of 1/10) the `f32`
sum and product are exact, so the rational model agrees with the code. -/

/-- Rust's `format!("{:.1}", x)` on a non-negative value that is an exact
multiple of 1/10 (no rounding engages on such inputs): integer part, a
dot, and the tenths digit. -/
def fmtFixed1 (q : ℚ) : String :=
  let t : Int := (q.num * 10).tdiv (q.den : Int)
  toString (t.tdiv 10) ++ "." ++ toString (t.tmod 10).natAbs

/-- Rust's `format!("{}", x)` (the `Display` of `f32`, shortest
round-tripping representation): an integer value prints with no decimal
point. -/
def fmtF32Display (q : ℚ) : String :=
  if q.den = 1 then toString q.num else fmtFixed1 q

/-- The CPU band text of `src/main.rs:68-73`: the aggregate usage is the
sum of the per-core percentages formatted to one decimal, the maximum is
`cores × 100` formatted with `Display`. -/
def cpuBandText (cores : List ℚ) : String :=
  "CPU Usage: " ++ fmtFixed1 cores.sum ++ "% / "
    ++ fmtF32Display ((cores.length : ℚ) * 100) ++ "%"

/-- C6: Four cores at usages `[10.0, 20.0, 30.0, 40.0]` give exactly
`"CPU Usage: 100.0% / 400%"`. -/
theorem cpu_band_scenario :
    cpuBandText [10, 20, 30, 40] = "CPU Usage: 100.0% / 400%" := by
  have h1 : ([10, 20, 30, 40] : List ℚ).sum = 100 := by norm_num
  have h2 : ((([10, 20, 30, 40] : List ℚ).length : ℚ) * 100) = 400 := by
    norm_num
  unfold cpuBandText
  rw [h1, h2]
  decide

/-! ## Layout (`src/main.rs` lines 56-65) -/

/-- A band of the vertical layout: its top row `y` and its `height`, in
terminal rows. -/
structure Band where
  y : Nat
  height : Nat
deriving DecidableEq, Repr

/-- Modelled from the spec: the vertical-split constraint solver lives in
the external `ratatui` layout library; `src/main.rs:56-65` only declares
the constraints `[Length(3), Length(3), Min(8), Min(10)]` with margin 1.
Per the spec's policy, the CPU and Memory bands get exactly 3 rows, the
process band its 8-row minimum, and the Info band the remaining interior
space (interior = terminal height minus the two 1-row margins). -/
def layoutSplit (termHeight : Nat) : List Band :=
  let interior := termHeight - 2
  [⟨1, 3⟩, ⟨4, 3⟩, ⟨7, 8⟩, ⟨15, interior - 14⟩]

/-- C7: For every terminal height at least the sum of the fixed minimums
(3+3+8+10 plus the two margin rows = 26), the band heights are
non-negative, the CPU and Memory bands are exactly 3 rows, consecutive
bands do not overlap, and the heights sum to the interior height. -/
theorem layout_bands_partition_interior (termHeight : Nat)
    (h : 26 ≤ termHeight) :
    (∀ b ∈ layoutSplit termHeight, 0 ≤ (b.height : Int)) ∧
    ((layoutSplit termHeight).map Band.height).take 2 = [3, 3] ∧
    List.Chain' (fun a b => a.y + a.height ≤ b.y) (layoutSplit termHeight) ∧
    ((layoutSplit termHeight).map Band.height).sum = termHeight - 2 := by
  refine ⟨fun b _ => Int.ofNat_nonneg _, rfl, ?_, ?_⟩
  · simp only [layoutSplit, List.chain'_cons, List.chain'_singleton,
      and_true]
    omega
  · simp only [layoutSplit, List.map_cons, List.map_nil, List.sum_cons,
      List.sum_nil]
    omega

/-- Witness for C7 at a 30-row terminal. -/
theorem layout_bands_partition_interior_witness :
    (∀ b ∈ layoutSplit 30, 0 ≤ (b.height : Int)) ∧
    ((layoutSplit 30).map Band.height).take 2 = [3, 3] ∧
    List.Chain' (fun a b => a.y + a.height ≤ b.y) (layoutSplit 30) ∧
    ((layoutSplit 30).map Band.height).sum = 30 - 2 :=
  layout_bands_partition_interior 30 (by decide)

/-! ## One loop iteration (`src/main.rs` lines 48-180)

One iteration of `run_app`'s loop is a pure function of the outcomes the
environment returns for `terminal.draw(..)`, `event::poll(timeout)` and
`event::read()`.  Only the key code is inspected by the code, so a key
event is embedded as its code. -/

/-- An I/O error description (`std::io::Error`, abstracted to its
printed form). -/
def IoError := String
deriving DecidableEq, Repr

/-- A `crossterm` key code: a character key, or any of the non-character
keys (arrows, function keys, ...), which the code never distinguishes. -/
inductive KeyCode where
  | char (c : Char)
  | nonChar
deriving DecidableEq, Repr

/-- A `crossterm` input event: a key event (embedded as its code), or any
non-key event (mouse, resize, focus, paste), which the code ignores. -/
inductive TermEvent where
  | key (code : KeyCode)
  | nonKey
deriving DecidableEq, Repr

/-- The outcome of one iteration of `run_app`'s loop: run another cycle,
leave the loop via `break` (the quit command), or propagate a fatal I/O
error via `?`. -/
inductive StepResult where
  | continueRunning
  | stopped
  | fatal (e : IoError)
deriving DecidableEq, Repr

/-- One iteration of the `run_app` loop (`src/main.rs:48-180`): draw the
frame (`?` propagates a draw error), poll for input within the timeout
(`?` propagates a poll error; `false` means timeout), and on an available
event read it (`?` propagates a read error); only `Event::Key` with code
`Char('q')` breaks the loop, every other event falls through to the next
cycle. -/
def runAppStep (drawRes : Except IoError Unit) (pollRes : Except IoError Bool)
    (readRes : Except IoError TermEvent) : StepResult :=
  match drawRes with
  | .error e => .fatal e
  | .ok _ =>
    match pollRes with
    | .error e => .fatal e
    | .ok false => .continueRunning
    | .ok true =>
      match readRes with
      | .error e => .fatal e
      | .ok (.key (.char c)) =>
        if c = 'q' then .stopped else .continueRunning
      | .ok (.key .nonChar) => .continueRunning
      | .ok .nonKey => .continueRunning

/-- C8: The loop leaves the `Running` state only when the character `q` is
observed during the input poll or when an I/O error propagates from
drawing, polling or reading; every other key event, every non-key event
and every poll timeout leads to another cycle. -/
theorem loop_stops_only_on_quit_or_fatal
    (drawRes : Except IoError Unit) (pollRes : Except IoError Bool)
    (readRes : Except IoError TermEvent) :
    (runAppStep drawRes pollRes readRes = .stopped ↔
      drawRes = .ok () ∧ pollRes = .ok true ∧
        readRes = .ok (.key (.char 'q'))) ∧
    (∀ e, runAppStep drawRes pollRes readRes = .fatal e →
      drawRes = .error e ∨ pollRes = .error e ∨ readRes = .error e) ∧
    (∀ ev, drawRes = .ok () → pollRes = .ok true → readRes = .ok ev →
      ev ≠ .key (.char 'q') →
      runAppStep drawRes pollRes readRes = .continueRunning) ∧
    (drawRes = .ok () → pollRes = .ok false →
      runAppStep drawRes pollRes readRes = .continueRunning) := by
  rcases drawRes with e | u
  · simp [runAppStep]
  · cases u
    rcases pollRes with e | b
    · simp [runAppStep]
    · rcases b with _ | _
      · simp [runAppStep]
      · rcases readRes with e | ev
        · simp [runAppStep]
        · rcases ev with c | _
          · rcases c with c | _
            · by_cases hc : c = 'q' <;> simp [runAppStep, hc]
            · simp [runAppStep]
          · simp [runAppStep]

/-- Witness for C8: a non-quit character key and a poll timeout both lead
to another cycle. -/
theorem loop_stops_only_on_quit_or_fatal_witness :
    runAppStep (Except.ok ()) (Except.ok true)
      (Except.ok (TermEvent.key (KeyCode.char 'x'))) =
        StepResult.continueRunning ∧
    runAppStep (Except.ok ()) (Except.ok false)
      (Except.ok TermEvent.nonKey) = StepResult.continueRunning :=
  ⟨(loop_stops_only_on_quit_or_fatal (Except.ok ()) (Except.ok true)
      (Except.ok (TermEvent.key (KeyCode.char 'x')))).2.2.1
      (TermEvent.key (KeyCode.char 'x')) rfl rfl rfl (by decide),
    (loop_stops_only_on_quit_or_fatal (Except.ok ()) (Except.ok false)
      (Except.ok TermEvent.nonKey)).2.2.2 rfl rfl⟩

/-! ## `main` teardown (`src/main.rs` lines 17-41)

After `run_app` returns, `main` runs `disable_raw_mode()?`, the
`LeaveAlternateScreen` execute (with `DisableMouseCapture`), and
`terminal.show_cursor()?`; then, if `run_app` returned an error, it is
printed with `eprintln!("{:?}", err)`, and `main` returns `Ok(())`.
`mainAfterLoop` records the trace of invoked terminal actions together
with `main`'s returned `Result`, as a pure function of the outcome of
`run_app` and the outcomes of the three teardown operations. -/

/-- A terminal-restoration or diagnostic action `main` can invoke after
the loop has returned. -/
inductive TermAction where
  | disableRawMode
  | leaveAlternateScreen
  | showCursor
  | eprintErr (e : IoError)
deriving DecidableEq, Repr

/-- The tail of `main` (`src/main.rs:25-40`): each teardown operation is
invoked in order; a failing one propagates via `?`, skipping the rest; if
all succeed and `run_app` failed, its error is printed to stderr and
`main` still returns `Ok(())`. -/
def mainAfterLoop (runResult : Except IoError Unit)
    (disableRawRes leaveAltRes showCursorRes : Except IoError Unit) :
    List TermAction × Except IoError Unit :=
  match disableRawRes with
  | .error e => ([.disableRawMode], .error e)
  | .ok _ =>
    match leaveAltRes with
    | .error e => ([.disableRawMode, .leaveAlternateScreen], .error e)
    | .ok _ =>
      match showCursorRes with
      | .error e =>
        ([.disableRawMode, .leaveAlternateScreen, .showCursor], .error e)
      | .ok _ =>
        match runResult with
        | .error err =>
          ([.disableRawMode, .leaveAlternateScreen, .showCursor,
            .eprintErr err], .ok ())
        | .ok _ =>
          ([.disableRawMode, .leaveAlternateScreen, .showCursor], .ok ())

/-- The process exit code determined by `main`'s returned `Result`:
`Ok` exits 0, a returned error exits non-zero. -/
def exitCode : Except IoError Unit → Nat
  | .ok _ => 0
  | .error _ => 1

/-- C9: Restoration is attempted on every exit path (`disable_raw_mode` is
invoked whatever the loop and the teardown return); when the teardown
operations succeed, all three restoration steps run in order on both
covered exit paths, a loop error is printed to the diagnostic stream, and
a clean quit makes `main` return `Ok(())` with exit code 0. -/
theorem main_teardown_on_every_exit (runResult : Except IoError Unit) :
    (∀ d l s, TermAction.disableRawMode ∈ (mainAfterLoop runResult d l s).1) ∧
    (∀ d l s, d = Except.ok () → l = Except.ok () → s = Except.ok () →
      [TermAction.disableRawMode, TermAction.leaveAlternateScreen,
        TermAction.showCursor].Sublist (mainAfterLoop runResult d l s).1 ∧
      (∀ e, runResult = .error e →
        TermAction.eprintErr e ∈ (mainAfterLoop runResult d l s).1) ∧
      (runResult = .ok () → (mainAfterLoop runResult d l s).2 = .ok () ∧
        exitCode (mainAfterLoop runResult d l s).2 = 0)) := by
  constructor
  · intro d l s
    rcases d with e | u
    · simp [mainAfterLoop]
    · cases u
      rcases l with e | u
      · simp [mainAfterLoop]
      · cases u
        rcases s with e | u
        · simp [mainAfterLoop]
        · cases u
          rcases runResult with e | u
          · simp [mainAfterLoop]
          · cases u
            simp [mainAfterLoop]
  · intro d l s hd hl hs
    subst hd hl hs
    rcases runResult with e | u
    · refine ⟨?_, ?_, ?_⟩
      · show [TermAction.disableRawMode, TermAction.leaveAlternateScreen,
          TermAction.showCursor].Sublist
          ([TermAction.disableRawMode, TermAction.leaveAlternateScreen,
            TermAction.showCursor] ++ [TermAction.eprintErr e])
        exact List.sublist_append_left _ _
      · intro e' he
        cases he
        simp [mainAfterLoop]
      · intro h
        cases h
    · cases u
      refine ⟨List.Sublist.refl _, ?_, fun _ => ⟨rfl, rfl⟩⟩
      intro e' he
      cases he

/-- Witness for C9: with a failing loop the three restoration steps and
the error print all appear in the trace; with a clean quit `main` returns
`Ok(())`. -/
theorem main_teardown_on_every_exit_witness :
    [TermAction.disableRawMode, TermAction.leaveAlternateScreen,
      TermAction.showCursor].Sublist
      (mainAfterLoop (Except.error "disk") (Except.ok ()) (Except.ok ())
        (Except.ok ())).1 ∧
    TermAction.eprintErr "disk" ∈
      (mainAfterLoop (Except.error "disk") (Except.ok ()) (Except.ok ())
        (Except.ok ())).1 ∧
    (mainAfterLoop (Except.ok ()) (Except.ok ()) (Except.ok ())
      (Except.ok ())).2 = Except.ok () :=
  ⟨((main_teardown_on_every_exit (Except.error "disk")).2
      (Except.ok ()) (Except.ok ()) (Except.ok ()) rfl rfl rfl).1,
    ((main_teardown_on_every_exit (Except.error "disk")).2
      (Except.ok ()) (Except.ok ()) (Except.ok ()) rfl rfl rfl).2.1
      "disk" rfl,
    (((main_teardown_on_every_exit (Except.ok ())).2
      (Except.ok ()) (Except.ok ()) (Except.ok ()) rfl rfl rfl).2.2
      rfl).1⟩

/-- C10: When the loop returns an I/O error and the teardown succeeds,
`main` still returns `Ok(())`: the error is only printed to the
diagnostic stream, and the exit code is 0, identical to a clean quit. -/
theorem main_swallows_loop_error (e : IoError)
    (d l s : Except IoError Unit)
    (hd : d = Except.ok ()) (hl : l = Except.ok ())
    (hs : s = Except.ok ()) :
    (mainAfterLoop (.error e) d l s).2 = .ok () ∧
    exitCode (mainAfterLoop (.error e) d l s).2 = 0 ∧
    exitCode (mainAfterLoop (.error e) d l s).2 =
      exitCode (mainAfterLoop (.ok ()) d l s).2 ∧
    TermAction.eprintErr e ∈ (mainAfterLoop (.error e) d l s).1 := by
  subst hd hl hs
  simp [mainAfterLoop, exitCode]

/-- Witness for C10 at a concrete loop error with successful teardown. -/
theorem main_swallows_loop_error_witness :
    (mainAfterLoop (Except.error "boom") (Except.ok ()) (Except.ok ())
      (Except.ok ())).2 = Except.ok () ∧
    exitCode (mainAfterLoop (Except.error "boom") (Except.ok ())
      (Except.ok ()) (Except.ok ())).2 = 0 ∧
    exitCode (mainAfterLoop (Except.error "boom") (Except.ok ())
      (Except.ok ()) (Except.ok ())).2 =
      exitCode (mainAfterLoop (Except.ok ()) (Except.ok ()) (Except.ok ())
        (Except.ok ())).2 ∧
    TermAction.eprintErr "boom" ∈
      (mainAfterLoop (Except.error "boom") (Except.ok ()) (Except.ok ())
        (Except.ok ())).1 :=
  main_swallows_loop_error "boom" (Except.ok ()) (Except.ok ())
    (Except.ok ()) rfl rfl rfl

end RustTop

